import Mathlib

/-!
Verification of the mitremit tool (mitre-mitigates.go): a shallow embedding
of its cache manager, bundle fetcher, resolution engine, relationship join
and renderer sanitization, with theorems checking the specification's
claims against the embedded code.

Strings are Lean `String`s; byte buffers are `List Nat`; Go maps are
association lists (`List (String × α)`) iterated in list order; file-system
effects are explicit state passing over a `FS` record.  Case folding
(`strings.EqualFold`, `strings.ToLower`) is modelled at ASCII precision,
which is exact on the identifiers and names the program handles.
-/

/-- External reference record: (source_name, external_id, url), as in the
`externalReference` struct of mitre-mitigates.go. -/
structure externalReference where
  SourceName : String
  ExternalID : String
  URL : String
deriving DecidableEq, Repr

/-- Technique / sub-technique (`attackPattern` struct): STIX id, display
name, external references. -/
structure attackPattern where
  ID : String
  Name : String
  ExternalRefs : List externalReference
deriving DecidableEq, Repr

/-- Mitigation (`courseOfAction` struct): STIX id, display name, external
references. -/
structure courseOfAction where
  ID : String
  Name : String
  ExternalRefs : List externalReference
deriving DecidableEq, Repr

/-- Relationship record (`relationship` struct): STIX id, relationship
type, source ref, target ref. -/
structure relationship where
  ID : String
  RelationshipType : String
  SourceRef : String
  TargetRef : String
deriving DecidableEq, Repr

/-- Lower-casing of a string, character by character (ASCII model of Go
case folding, computed over the character list). -/
def goToLower (s : String) : String :=
  ⟨s.data.map Char.toLower⟩

/-- ASCII model of Go `strings.EqualFold`: equality after lower-casing
every character. -/
def goEqualFold (s t : String) : Bool :=
  decide (goToLower s = goToLower t)

/-- Model of `externalID(refs)`: the first reference whose source name
case-insensitively equals "mitre-attack" and whose external id is
non-empty yields that external id; `none` models the `("", false)`
return. -/
def externalID (refs : List externalReference) : Option String :=
  refs.findSome? fun r =>
    if goEqualFold r.SourceName "mitre-attack" = true ∧ r.ExternalID ≠ "" then
      some r.ExternalID
    else
      none

/-- The output unit (`techniqueInfo` struct): exactly two fields,
external id and display name, matching the Go struct declaration. -/
structure techniqueInfo where
  ExternalID : String
  Name : String
deriving DecidableEq, Repr

/-- Model of `strings.TrimPrefix(id, "attack-pattern--")`, computed over
the character list. -/
def stripAttackPatternMarker (id : String) : String :=
  if "attack-pattern--".data.isPrefixOf id.data then ⟨id.data.drop 16⟩
  else id

/-- The fallback external id used in the join: the authoritative external
id when present, else the STIX id with the `attack-pattern--` marker
stripped (main, lines 459-462). -/
def joinExternalID (tp : attackPattern) : String :=
  match externalID tp.ExternalRefs with
  | some ext => if ext = "" then stripAttackPatternMarker tp.ID else ext
  | none => stripAttackPatternMarker tp.ID

/-- Go map lookup modelled over an association list: the value of the
first pair whose key equals the query. -/
def lookupStr {α : Type} (l : List (String × α)) (k : String) : Option α :=
  l.findSome? fun p => if p.1 = k then some p.2 else none

/-- Unsorted relationship join (main, lines 450-468): keep relationships
whose type is "mitigates" and whose source is the chosen mitigation,
look the target up in the technique map (dangling targets dropped),
and append one `techniqueInfo` per surviving relationship edge. -/
def collectResults (rels : List relationship)
    (techMap : List (String × attackPattern)) (chosen : String) :
    List techniqueInfo :=
  rels.foldr
    (fun r acc =>
      if r.RelationshipType ≠ "mitigates" then acc
      else if r.SourceRef ≠ chosen then acc
      else
        match lookupStr techMap r.TargetRef with
        | some tp => ⟨joinExternalID tp, tp.Name⟩ :: acc
        | none => acc)
    []

/-- Lexicographic strictly-less on character lists, by code point —
the order Go's `<` induces on (valid UTF-8) strings. -/
def strLtList : List Char → List Char → Bool
  | [], [] => false
  | [], _ :: _ => true
  | _ :: _, [] => false
  | c :: cs, d :: ds =>
    if c.toNat < d.toNat then true
    else if d.toNat < c.toNat then false
    else strLtList cs ds

/-- Model of Go `<` on strings. -/
def strLt (s t : String) : Bool :=
  strLtList s.data t.data

/-- Insertion step for the sort by `ExternalID`. -/
def insertByExternalID (t : techniqueInfo) :
    List techniqueInfo → List techniqueInfo
  | [] => [t]
  | h :: rest =>
    if strLt t.ExternalID h.ExternalID then t :: h :: rest
    else h :: insertByExternalID t rest

/-- Model of `sort.Slice(results, less on ExternalID)` (main, lines
470-472): a permutation of the input ordered ascending by external id. -/
def sortResults (l : List techniqueInfo) : List techniqueInfo :=
  l.foldr insertByExternalID []

/-- The full result list handed to the renderers: join then sort. -/
def mitigatedTechniques (rels : List relationship)
    (techMap : List (String × attackPattern)) (chosen : String) :
    List techniqueInfo :=
  sortResults (collectResults rels techMap chosen)

/-- A fixture: mitigation M1037. -/
def fixtureMitigation : courseOfAction :=
  ⟨"course-of-action--x", "Filter Network Traffic",
    [⟨"mitre-attack", "M1037", ""⟩]⟩

/-- A fixture: technique T1071. -/
def fixtureTechnique : attackPattern :=
  ⟨"attack-pattern--y", "Application Layer Protocol",
    [⟨"mitre-attack", "T1071", ""⟩]⟩

/-- A fixture: two distinct "mitigates" relationship edges from M1037's
STIX id to T1071's STIX id. -/
def fixtureDoubleEdge : List relationship :=
  [⟨"relationship--1", "mitigates", "course-of-action--x", "attack-pattern--y"⟩,
   ⟨"relationship--2", "mitigates", "course-of-action--x", "attack-pattern--y"⟩]

/-- Model of `path/filepath.IsAbs` on Unix: the path starts with '/'. -/
def isAbs (path : String) : Bool :=
  match path.data with
  | c :: _ => c = '/'
  | [] => false

/-- Splitting a character list on a separator character, with the
semantics of `strings.Split` for a one-character separator: `n`
separators yield `n+1` (possibly empty) fields. -/
def splitOnChar (sep : Char) : List Char → List (List Char)
  | [] => [[]]
  | c :: rest =>
    let r := splitOnChar sep rest
    if c = sep then [] :: r
    else
      match r with
      | h :: t => (c :: h) :: t
      | [] => [[c]]

/-- Segment-stack core of `path/filepath.Clean` (Unix rules): empty and
"." segments are dropped; ".." pops the most recent real segment, is
dropped at the root of a rooted path, and is kept when a relative path
has nothing left to pop.  `acc` is the stack, most recent first. -/
def cleanSegs (rooted : Bool) : List String → List String → List String
  | [], acc => acc.reverse
  | c :: rest, acc =>
    if c = "" ∨ c = "." then cleanSegs rooted rest acc
    else if c = ".." then
      match acc with
      | a :: acc2 =>
        if a = ".." then cleanSegs rooted rest (".." :: a :: acc2)
        else cleanSegs rooted rest acc2
      | [] =>
        if rooted then cleanSegs rooted rest []
        else cleanSegs rooted rest [".."]
    else cleanSegs rooted rest (c :: acc)

/-- Model of `path/filepath.Clean` (Unix rules): shortest lexically
equivalent path — "." for the empty path, leading '/' preserved,
"." / empty segments removed and ".." resolved as in `cleanSegs`. -/
def clean (path : String) : String :=
  if path = "" then "."
  else
    let rooted := isAbs path
    let stack := cleanSegs rooted
      ((splitOnChar '/' path.data).map fun l => (⟨l⟩ : String)) []
    if rooted then "/" ++ String.intercalate "/" stack
    else if stack = [] then "." else String.intercalate "/" stack

/-- Model of `getCacheDir` (flag values and the `MITRE_CACHE_DIR`
environment value passed explicitly; `env = ""` models an unset
variable, exactly the condition the source tests): precedence is
--no-cache sentinel, --cache-dir flag, validated environment value
(cleaned, then accepted only when absolute), container default, local
default. -/
def getCacheDir (noCacheFlag : Bool) (cacheDirFlag env : String)
    (inContainer : Bool) : String :=
  if noCacheFlag then "/dev/null"
  else if cacheDirFlag ≠ "" then cacheDirFlag
  else if env ≠ "" ∧ isAbs (clean env) = true then clean env
  else if inContainer then "/tmp/.mitre-cache"
  else ".mitre-cache"

/-- The exact branch condition under which `getCacheDir` prints
"WARNING: MITRE_CACHE_DIR must be absolute path, ignoring: ..." to
stderr: the environment value is consulted, and its cleaned form is not
absolute. -/
def envCacheDirWarning (noCacheFlag : Bool) (cacheDirFlag env : String) :
    Prop :=
  noCacheFlag = false ∧ cacheDirFlag = "" ∧ env ≠ ""
    ∧ isAbs (clean env) = false

/-- Model of exact-ID mitigation resolution (main, lines 420-431): scan
the mitigations map, return the STIX id of the first entry whose
authoritative external id case-insensitively equals the query. -/
def resolveMitByID (mits : List (String × courseOfAction)) (q : String) :
    Option String :=
  (mits.find? fun p =>
    match externalID p.2.ExternalRefs with
    | some ext => goEqualFold ext q
    | none => false).map Prod.fst

/-- ASCII whitespace, the precision at which `strings.TrimSpace` is
modelled. -/
def isSpaceChar (c : Char) : Bool :=
  c = ' ' || c = '\t' || c = '\n' || c = '\r'

/-- Model of `strings.TrimSpace`: leading and trailing whitespace
removed. -/
def goTrimSpace (s : String) : String :=
  ⟨((s.data.dropWhile isSpaceChar).reverse.dropWhile isSpaceChar).reverse⟩

/-- Whether `pat` occurs as a substring of `s` (used to state what the
not-found message does and does not contain). -/
def strContains (s pat : String) : Bool :=
  s.data.tails.any fun t => pat.data.isPrefixOf t

/-- Model of name-mode mitigation resolution (main, lines 432-440): trim
the flag value, return the STIX id of the first entry whose display name
case-insensitively equals the trimmed target. -/
def resolveMitByName (mits : List (String × courseOfAction))
    (nameFlag : String) : Option String :=
  (mits.find? fun p => goEqualFold p.2.Name (goTrimSpace nameFlag)).map
    Prod.fst

/-- The complete stderr output of the name-mode miss path (main, lines
441-444): `fmt.Fprintf(os.Stderr, "mitigation name %q not found (check
spelling)\n", target)` followed by exit(1).  For targets without
characters that %q escapes, %q is plain double quoting. -/
def nameNotFoundMessage (target : String) : String :=
  "mitigation name \"" ++ target ++ "\" not found (check spelling)\n"

/-- The JSON object emitted for one `techniqueInfo` by the JSON renderer
(`encoding/json` marshalling of the struct per its field tags): key/value
pairs in struct field order. -/
def techniqueInfoJSON (t : techniqueInfo) : List (String × String) :=
  [("external_id", t.ExternalID), ("name", t.Name)]

/-- The character class admitted inside nGQL identifiers by `quoteID`:
letters, digits, '-', '_', '.' (letters and digits at ASCII precision
of `unicode.IsLetter` / `unicode.IsDigit`). -/
def isAllowedIDChar (c : Char) : Bool :=
  c.isAlpha || c.isDigit || c == '-' || c == '_' || c == '.'

/-- The backquote delimiter character (U+0060). -/
def backquoteChar : Char :=
  Char.ofNat 96

/-- The `strings.Map` pass of `quoteID`: every character outside the
allowed class becomes '_'. -/
def sanitizeID (s : String) : String :=
  ⟨s.data.map fun c => if isAllowedIDChar c then c else '_'⟩

/-- Model of `strings.ReplaceAll(s, backquote, double backquote)` at the
character-list level (exact for a one-character pattern). -/
def doubleBackquotes : List Char → List Char
  | [] => []
  | c :: rest =>
    (if c = backquoteChar then [c, c] else [c]) ++ doubleBackquotes rest

/-- The text placed between the two delimiter characters by `quoteID`. -/
def quoteIDBody (s : String) : String :=
  ⟨doubleBackquotes (sanitizeID s).data⟩

/-- Model of `quoteID`: sanitize, double any remaining delimiter
character, wrap in backquote delimiters. -/
def quoteID (s : String) : String :=
  "`" ++ quoteIDBody s ++ "`"

/-- The mitigation's external id as `emitNGQL` computes it: the
authoritative external id, or "" when absent (the ignored `ok`). -/
def mitExtOf (mit : courseOfAction) : String :=
  (externalID mit.ExternalRefs).getD ""

/-- The sequence of backquote-delimited identifier tokens emitted by
`emitNGQL`, in emission order: the mitigation vertex id, one vertex id
per technique, then source and destination ids of each edge statement —
one entry per `quoteID` call site of the source. -/
def ngqlIdentifiers (mit : courseOfAction) (techs : List techniqueInfo) :
    List String :=
  quoteID (mitExtOf mit) :: (techs.map fun t => quoteID t.ExternalID)
    ++ techs.flatMap fun t => [quoteID (mitExtOf mit), quoteID t.ExternalID]

/-- A file in the model file system: content bytes, permission bits,
modification time (integer nanoseconds, matching `time.Duration`). -/
structure FileData where
  content : List Nat
  perm : Nat
  mtime : Int
deriving DecidableEq, Repr

/-- The model file system: a partial map from paths to files. -/
def FS : Type :=
  String → Option FileData

/-- Create or overwrite a file. -/
def fsInsert (fs : FS) (p : String) (fd : FileData) (q : String) :
    Option FileData :=
  if q = p then some fd else fs q

/-- Delete a file (`os.Remove`). -/
def fsRemove (fs : FS) (p : String) (q : String) : Option FileData :=
  if q = p then none else fs q

/-- `cacheTTL = 24 * time.Hour`, in nanoseconds. -/
def cacheTTL : Int :=
  24 * 60 * 60 * 1000000000

/-- Model of `isCacheValid`: the file exists (`os.Stat` succeeds) and
`time.Since(modTime) < cacheTTL` — age strictly below the TTL. -/
def isCacheValid (fs : FS) (now : Int) (path : String) : Bool :=
  match fs path with
  | none => false
  | some fd => decide (now - fd.mtime < cacheTTL)

/-- The error taxonomy of the fetch pipeline: cache-directory creation
failure, transport failure, non-200 status, and the over-size cap —
distinct constructors model the distinct wrapped error values. -/
inductive FetchError where
  | mkdirFailed (dir : String)
  | network
  | httpStatus (code : Nat)
  | tooLarge
deriving DecidableEq, Repr

/-- `maxSize = 200 * 1024 * 1024` from `downloadBundle`. -/
def maxBundleSize : Nat :=
  200 * 1024 * 1024

/-- Model of `downloadBundle` over an abstract transport outcome
(`none` = transport error, `some (status, body)` = a response): non-200
statuses are rejected; the body is read through a `LimitedReader` with
budget `maxBundleSize`, and a fully exhausted budget (`N <= 0`, i.e. at
least `maxBundleSize` body bytes) is the distinct over-size error. -/
def downloadBundle (transport : Option (Nat × List Nat)) :
    Except FetchError (List Nat) :=
  match transport with
  | none => .error .network
  | some (status, body) =>
    if status ≠ 200 then .error (.httpStatus status)
    else
      let data := body.take maxBundleSize
      if maxBundleSize - data.length = 0 then .error .tooLarge
      else .ok data

/-- Fault-injection oracles for one `fetchBundle` run: whether
`os.MkdirAll`, the cache `os.ReadFile`, the temp-file `os.WriteFile`
and `os.Rename` succeed, the junk a failed write leaves at the temp
path, and the transport outcome. -/
structure FetchBehavior where
  mkdirOk : Bool
  readOk : Bool
  writeOk : Bool
  renameOk : Bool
  leftover : List Nat
  transport : Option (Nat × List Nat)

/-- Outcome of one `fetchBundle` run: the returned value, the file
system afterwards, and whether the network download was performed. -/
structure FetchOutcome where
  result : Except FetchError (List Nat)
  fs : FS
  downloaded : Bool

/-- The cache file name joined under the cache directory. -/
def bundleFileName : String :=
  "enterprise-attack.json"

/-- Model of `filepath.Join(dir, file)`: the cleaned slash-joined path. -/
def joinPath (dir file : String) : String :=
  clean (dir ++ "/" ++ file)

/-- The persistence step of `fetchBundle` (lines 277-300): skipped when
caching is disabled; write the data to `<target>.tmp` with mode 0o600,
then atomically rename over the target; a failed write leaves only junk
at the temp path, a failed rename removes the temp file; the target is
touched only by the successful rename. -/
def persistCache (cacheDir bundlePath : String) (data : List Nat)
    (now : Int) (b : FetchBehavior) (fs : FS) : FS :=
  if cacheDir = "/dev/null" then fs
  else
    let tmpPath := bundlePath ++ ".tmp"
    if !b.writeOk then fsInsert fs tmpPath ⟨b.leftover, 0o600, now⟩
    else
      let fs1 := fsInsert fs tmpPath ⟨data, 0o600, now⟩
      if b.renameOk then
        fsInsert (fsRemove fs1 tmpPath) bundlePath ⟨data, 0o600, now⟩
      else fsRemove fs1 tmpPath

/-- Model of `fetchBundle`: resolve the cache directory, create it
(failure is fatal) unless caching is disabled, serve a valid readable
cache file without downloading, otherwise download and persist
best-effort — the downloaded bytes are returned whatever the
persistence outcome. -/
def fetchBundle (noCacheFlag : Bool) (cacheDirFlag : String)
    (forceRefresh : Bool) (env : String) (inContainer : Bool)
    (fs : FS) (now : Int) (b : FetchBehavior) : FetchOutcome :=
  let cacheDir := getCacheDir noCacheFlag cacheDirFlag env inContainer
  if cacheDir ≠ "/dev/null" ∧ b.mkdirOk = false then
    ⟨.error (.mkdirFailed cacheDir), fs, false⟩
  else
    let bundlePath := joinPath cacheDir bundleFileName
    match (if cacheDir ≠ "/dev/null" ∧ forceRefresh = false
              ∧ isCacheValid fs now bundlePath = true ∧ b.readOk = true
           then fs bundlePath else none) with
    | some fd => ⟨.ok fd.content, fs, false⟩
    | none =>
      match downloadBundle b.transport with
      | .error e => ⟨.error e, fs, true⟩
      | .ok data =>
        ⟨.ok data, persistCache cacheDir bundlePath data now b fs, true⟩

/-- The empty model file system. -/
def fsEmpty : FS :=
  fun _ => none

/-- A one-entry technique map for the fixtures. -/
def fixtureTechMap : List (String × attackPattern) :=
  [("attack-pattern--y", fixtureTechnique)]

/-- A one-entry mitigation map for the fixtures. -/
def fixtureMits : List (String × courseOfAction) :=
  [("course-of-action--x", fixtureMitigation)]

/-- A model file system holding one just-written cache file under
`/cache` with content `[7]`. -/
def fsFresh : FS :=
  fsInsert fsEmpty "/cache/enterprise-attack.json" ⟨[7], 0o600, 0⟩

/-- A behavior in which every file-system operation succeeds and the
transport returns status 200 with body `[1, 2, 3]`. -/
def behaviorOk : FetchBehavior :=
  ⟨true, true, true, true, [], some (200, [1, 2, 3])⟩

/-- A behavior identical to `behaviorOk` except the temp-file write
fails, leaving junk `[9]` at the temp path. -/
def behaviorNoWrite : FetchBehavior :=
  ⟨true, true, false, true, [9], some (200, [1, 2, 3])⟩

/-- C1: the claim fails on the code — the relationship join performs no
deduplication, so with two distinct "mitigates" edges from the same
mitigation to the same technique, external id T1071 appears twice in the
sorted result list instead of exactly once. -/
theorem mitigatedTechniques_no_dedup_on_double_edge :
    mitigatedTechniques fixtureDoubleEdge fixtureTechMap "course-of-action--x"
      = [⟨"T1071", "Application Layer Protocol"⟩,
         ⟨"T1071", "Application Layer Protocol"⟩]
    ∧ ¬ ((mitigatedTechniques fixtureDoubleEdge fixtureTechMap
          "course-of-action--x").map techniqueInfo.ExternalID).Nodup := by
  constructor
  · decide
  · decide

/-- C4: the claim fails on the code — name-mode resolution of the typo
"Filter Network Trafic" against a corpus containing "Filter Network
Traffic" misses, and the entire stderr payload is the fixed
not-found message: it contains no "Did you mean" marker and not the
suggestion "Filter Network Traffic"; no edit-distance suggestion list is
computed anywhere in the source. -/
theorem nameMiss_emits_no_suggestions :
    resolveMitByName fixtureMits "Filter Network Trafic" = none
    ∧ nameNotFoundMessage "Filter Network Trafic"
        = "mitigation name \"Filter Network Trafic\" not found (check spelling)\n"
    ∧ strContains (nameNotFoundMessage "Filter Network Trafic")
        "Did you mean" = false
    ∧ strContains (nameNotFoundMessage "Filter Network Trafic")
        "Filter Network Traffic" = false := by
  refine ⟨by decide, rfl, by decide, by decide⟩

/-- C5: the claim fails on the code — the result record has exactly the
two fields external id and name, and the JSON object emitted for a
technique has keys exactly {external_id, name}: no tactics component
exists anywhere in the output contract. -/
theorem techniqueInfoJSON_has_no_tactics :
    techniqueInfoJSON ⟨"T1071", "Application Layer Protocol"⟩
      = [("external_id", "T1071"), ("name", "Application Layer Protocol")]
    ∧ (techniqueInfoJSON ⟨"T1071", "Application Layer Protocol"⟩).map
        Prod.fst = ["external_id", "name"]
    ∧ "tactics" ∉ (techniqueInfoJSON
        ⟨"T1071", "Application Layer Protocol"⟩).map Prod.fst := by
  refine ⟨rfl, rfl, by decide⟩

/-- C9: exact-ID resolution is case-insensitive — the scan compares the
query to each mitigation's authoritative external identifier with
case folding, so any two queries equal up to letter case resolve to the
same mitigation. -/
theorem resolveMitByID_case_insensitive
    (mits : List (String × courseOfAction)) (q₁ q₂ : String)
    (h : goToLower q₁ = goToLower q₂) :
    resolveMitByID mits q₁ = resolveMitByID mits q₂ := by
  have hp : (fun p : String × courseOfAction =>
      match externalID p.2.ExternalRefs with
      | some ext => goEqualFold ext q₁
      | none => false)
      = (fun p : String × courseOfAction =>
      match externalID p.2.ExternalRefs with
      | some ext => goEqualFold ext q₂
      | none => false) := by
    funext p
    cases externalID p.2.ExternalRefs with
    | none => rfl
    | some ext => simp [goEqualFold, h]
  simp only [resolveMitByID, hp]

/-- C9 witness: "m1037" and "M1037" fold to the same string, so both
resolve to the fixture mitigation's STIX id. -/
theorem resolveMitByID_case_insensitive_witness :
    goToLower "m1037" = goToLower "M1037"
    ∧ resolveMitByID fixtureMits "m1037" = resolveMitByID fixtureMits "M1037" :=
  ⟨by decide, resolveMitByID_case_insensitive fixtureMits "m1037" "M1037"
    (by decide)⟩

/-- Every character the sanitizing map emits is in the allowed class. -/
theorem sanitizeID_allowed (s : String) :
    ∀ c ∈ (sanitizeID s).data, isAllowedIDChar c = true := by
  intro c hc
  simp only [sanitizeID] at hc
  obtain ⟨a, _, rfl⟩ := List.mem_map.mp hc
  by_cases h : isAllowedIDChar a = true
  · simp [h]
  · simp [Bool.not_eq_true] at h
    simp [h]
    decide

/-- The delimiter-doubling pass introduces no new characters. -/
theorem doubleBackquotes_mem {l : List Char} {c : Char}
    (hc : c ∈ doubleBackquotes l) : c ∈ l := by
  induction l with
  | nil => simp [doubleBackquotes] at hc
  | cons d rest ih =>
    simp only [doubleBackquotes, List.mem_append] at hc
    rcases hc with hc | hc
    · have hcd : c = d := by
        by_cases hd : d = backquoteChar
        · rw [if_pos hd] at hc
          rcases List.mem_cons.mp hc with h | h
          · exact h
          · simpa using h
        · rw [if_neg hd] at hc
          simpa using hc
      rw [hcd]
      exact List.mem_cons_self d rest
    · exact List.mem_cons_of_mem d (ih hc)

/-- C3: every backquote-delimited identifier token emitted by the
graph-insert renderer is the two delimiters around a body consisting
solely of letters, digits, '-', '_', '.'; in particular no backquote,
semicolon or space occurs inside the body. -/
theorem ngqlIdentifiers_sanitized (mit : courseOfAction)
    (techs : List techniqueInfo) (tok : String)
    (htok : tok ∈ ngqlIdentifiers mit techs) :
    ∃ body : String, tok = "`" ++ body ++ "`"
      ∧ (∀ c ∈ body.data, isAllowedIDChar c = true)
      ∧ backquoteChar ∉ body.data ∧ ';' ∉ body.data ∧ ' ' ∉ body.data := by
  have hq : ∀ s : String, ∃ body : String, quoteID s = "`" ++ body ++ "`"
      ∧ (∀ c ∈ body.data, isAllowedIDChar c = true)
      ∧ backquoteChar ∉ body.data ∧ ';' ∉ body.data ∧ ' ' ∉ body.data := by
    intro s
    have hall : ∀ c ∈ (quoteIDBody s).data, isAllowedIDChar c = true := by
      intro c hc
      exact sanitizeID_allowed s c (doubleBackquotes_mem hc)
    refine ⟨quoteIDBody s, rfl, hall, ?_, ?_, ?_⟩
    · intro hmem
      have := hall _ hmem
      revert this
      decide
    · intro hmem
      have := hall _ hmem
      revert this
      decide
    · intro hmem
      have := hall _ hmem
      revert this
      decide
  unfold ngqlIdentifiers at htok
  have key : tok = quoteID (mitExtOf mit)
      ∨ ∃ t : techniqueInfo, tok = quoteID t.ExternalID := by
    rcases List.mem_cons.mp htok with h | h
    · exact Or.inl h
    · rcases List.mem_append.mp h with h | h
      · obtain ⟨t, _, ht⟩ := List.mem_map.mp h
        exact Or.inr ⟨t, ht.symm⟩
      · obtain ⟨t, _, ht⟩ := List.mem_flatMap.mp h
        rcases List.mem_cons.mp ht with ht | ht
        · exact Or.inl ht
        · rcases List.mem_cons.mp ht with ht | ht
          · exact Or.inr ⟨t, ht⟩
          · simp at ht
  rcases key with h | ⟨t, h⟩
  · exact h ▸ hq _
  · exact h ▸ hq _

/-- C3 witness: the mitigation-vertex identifier token of the M1037
fixture. -/
theorem ngqlIdentifiers_sanitized_witness :
    quoteID "M1037" ∈ ngqlIdentifiers fixtureMitigation []
    ∧ ∃ body : String, quoteID "M1037" = "`" ++ body ++ "`"
      ∧ (∀ c ∈ body.data, isAllowedIDChar c = true)
      ∧ backquoteChar ∉ body.data ∧ ';' ∉ body.data ∧ ' ' ∉ body.data :=
  ⟨by decide,
   ngqlIdentifiers_sanitized fixtureMitigation [] (quoteID "M1037")
     (by decide)⟩

/-- When the flags are inactive and the cleaned environment value is
absolute, the env branch of `getCacheDir` fires and returns the cleaned
value. -/
theorem getCacheDir_env_accepted (v : String) (c : Bool) (hv : v ≠ "")
    (h3 : isAbs (clean v) = true) :
    getCacheDir false "" v c = clean v := by
  simp [getCacheDir, hv, h3]

/-- C2: the environment-supplied cache directory is consulted only after
the flags; a value whose cleaned form is not absolute triggers the
warning branch and resolution behaves exactly as if the variable were
unset (falling through to the container or local default), and the
literal value itself is the chosen directory precisely when it is an
absolute, already-clean path. -/
theorem getCacheDir_env_validation (v : String) (c : Bool) (hv : v ≠ "") :
    (isAbs (clean v) = false →
      envCacheDirWarning false "" v
      ∧ getCacheDir false "" v c = getCacheDir false "" "" c)
    ∧ ((isAbs (clean v) = true ∧ getCacheDir false "" v c = v)
        ↔ (isAbs v = true ∧ clean v = v)) := by
  constructor
  · intro h
    refine ⟨⟨rfl, rfl, hv, h⟩, ?_⟩
    simp [getCacheDir, hv, h]
  · constructor
    · rintro ⟨h1, h2⟩
      rw [getCacheDir_env_accepted v c hv h1] at h2
      exact ⟨h2 ▸ h1, h2⟩
    · rintro ⟨h1, h2⟩
      have h3 : isAbs (clean v) = true := by rw [h2]; exact h1
      refine ⟨h3, ?_⟩
      rw [getCacheDir_env_accepted v c hv h3]
      exact h2

/-- C2 witness: the relative value "../../tmp/evil" is rejected with the
warning and resolution falls through to the local default. -/
theorem getCacheDir_env_validation_witness :
    ("../../tmp/evil" : String) ≠ ""
    ∧ isAbs (clean "../../tmp/evil") = false
    ∧ envCacheDirWarning false "" "../../tmp/evil"
    ∧ getCacheDir false "" "../../tmp/evil" false
        = getCacheDir false "" "" false :=
  ⟨by decide, by decide,
   ((getCacheDir_env_validation "../../tmp/evil" false (by decide)).1
     (by decide)).1,
   ((getCacheDir_env_validation "../../tmp/evil" false (by decide)).1
     (by decide)).2⟩

/-- C10: the downloader rejects as over-size any 200 response whose body
reaches the 200 MiB cap (the cap itself included), accepts shorter
bodies whole — so the largest accepted bundle is one byte below the
cap — and the over-size error is a value distinct from the transport
and bad-status errors. -/
theorem downloadBundle_size_cap (body : List Nat) :
    (maxBundleSize ≤ body.length →
      downloadBundle (some (200, body)) = .error .tooLarge)
    ∧ (body.length < maxBundleSize →
      downloadBundle (some (200, body)) = .ok body)
    ∧ (∀ data, downloadBundle (some (200, body)) = .ok data →
      data.length ≤ maxBundleSize - 1)
    ∧ (∀ s, s ≠ 200 →
      downloadBundle (some (s, body)) = .error (.httpStatus s))
    ∧ downloadBundle none = .error .network
    ∧ FetchError.tooLarge ≠ FetchError.network
    ∧ (∀ s, FetchError.tooLarge ≠ FetchError.httpStatus s) := by
  refine ⟨?_, ?_, ?_, ?_, rfl, by simp, by simp⟩
  · intro h
    have hlen : (body.take maxBundleSize).length = maxBundleSize := by
      simp [List.length_take, Nat.min_eq_left h]
    simp [downloadBundle, hlen]
  · intro h
    have htake : body.take maxBundleSize = body :=
      List.take_of_length_le (Nat.le_of_lt h)
    simp [downloadBundle, htake, Nat.sub_ne_zero_of_lt h]
  · intro data hdata
    have hstep : downloadBundle (some (200, body))
        = (if maxBundleSize - (body.take maxBundleSize).length = 0 then
            Except.error FetchError.tooLarge
           else Except.ok (body.take maxBundleSize)) := rfl
    rw [hstep] at hdata
    by_cases h0 : maxBundleSize - (body.take maxBundleSize).length = 0
    · rw [if_pos h0] at hdata
      exact absurd hdata (by simp)
    · rw [if_neg h0] at hdata
      cases hdata
      omega
  · intro s hs
    simp [downloadBundle, hs]

/-- C10 witness: a body of exactly the cap is rejected as over-size, a
three-byte body is accepted whole, and a 404 status is the distinct
bad-status error. -/
theorem downloadBundle_size_cap_witness :
    downloadBundle (some (200, List.replicate maxBundleSize 0))
      = .error .tooLarge
    ∧ downloadBundle (some (200, [1, 2, 3])) = .ok [1, 2, 3]
    ∧ downloadBundle (some (404, [1, 2, 3]))
      = .error (.httpStatus 404) :=
  ⟨(downloadBundle_size_cap (List.replicate maxBundleSize 0)).1 (by simp),
   (downloadBundle_size_cap [1, 2, 3]).2.1 (by decide),
   (downloadBundle_size_cap [1, 2, 3]).2.2.2.1 404 (by decide)⟩

/-- Appending the temp suffix changes the path. -/
theorem append_tmp_ne (s : String) : s ++ ".tmp" ≠ s := by
  intro h
  have hl := congrArg String.length h
  rw [String.length_append] at hl
  have h4 : (".tmp" : String).length = 4 := rfl
  omega

/-- A valid cache file exists and is fresh. -/
theorem isCacheValid_some (fs : FS) (now : Int) (path : String)
    (h : isCacheValid fs now path = true) :
    ∃ fd, fs path = some fd ∧ now - fd.mtime < cacheTTL := by
  unfold isCacheValid at h
  cases hx : fs path with
  | none => rw [hx] at h; simp at h
  | some fd =>
    rw [hx] at h
    simp only [decide_eq_true_eq] at h
    exact ⟨fd, rfl, h⟩

/-- A fresh existing cache file is valid. -/
theorem isCacheValid_of_some (fs : FS) (now : Int) (path : String)
    (fd : FileData) (hfd : fs path = some fd)
    (hlt : now - fd.mtime < cacheTTL) :
    isCacheValid fs now path = true := by
  unfold isCacheValid
  rw [hfd]
  simpa using hlt

/-- `fetchBundle` on a failed cache-directory creation. -/
theorem fetchBundleMkdirFail (noCacheFlag : Bool) (cacheDirFlag : String)
    (forceRefresh : Bool) (env : String) (c : Bool) (fs : FS) (now : Int)
    (b : FetchBehavior)
    (hmkB : getCacheDir noCacheFlag cacheDirFlag env c ≠ "/dev/null"
      ∧ b.mkdirOk = false) :
    fetchBundle noCacheFlag cacheDirFlag forceRefresh env c fs now b
      = ⟨.error (.mkdirFailed (getCacheDir noCacheFlag cacheDirFlag env c)),
          fs, false⟩ := by
  simp only [fetchBundle]
  rw [if_pos hmkB]

/-- `fetchBundle` on a hit: a valid, readable cache file is returned
as-is and nothing is downloaded. -/
theorem fetchBundleHit (noCacheFlag : Bool) (cacheDirFlag : String)
    (forceRefresh : Bool) (env : String) (c : Bool) (fs : FS) (now : Int)
    (b : FetchBehavior) (fd : FileData)
    (hmkB : ¬(getCacheDir noCacheFlag cacheDirFlag env c ≠ "/dev/null"
      ∧ b.mkdirOk = false))
    (hcond : getCacheDir noCacheFlag cacheDirFlag env c ≠ "/dev/null"
      ∧ forceRefresh = false
      ∧ isCacheValid fs now
          (joinPath (getCacheDir noCacheFlag cacheDirFlag env c)
            bundleFileName) = true
      ∧ b.readOk = true)
    (hfd : fs (joinPath (getCacheDir noCacheFlag cacheDirFlag env c)
        bundleFileName) = some fd) :
    fetchBundle noCacheFlag cacheDirFlag forceRefresh env c fs now b
      = ⟨.ok fd.content, fs, false⟩ := by
  simp only [fetchBundle]
  rw [if_neg hmkB, if_pos hcond, hfd]

/-- `fetchBundle` on a miss: the outcome is the download followed by the
best-effort persistence step. -/
theorem fetchBundleMiss (noCacheFlag : Bool) (cacheDirFlag : String)
    (forceRefresh : Bool) (env : String) (c : Bool) (fs : FS) (now : Int)
    (b : FetchBehavior)
    (hmkB : ¬(getCacheDir noCacheFlag cacheDirFlag env c ≠ "/dev/null"
      ∧ b.mkdirOk = false))
    (hcond : ¬(getCacheDir noCacheFlag cacheDirFlag env c ≠ "/dev/null"
      ∧ forceRefresh = false
      ∧ isCacheValid fs now
          (joinPath (getCacheDir noCacheFlag cacheDirFlag env c)
            bundleFileName) = true
      ∧ b.readOk = true)) :
    fetchBundle noCacheFlag cacheDirFlag forceRefresh env c fs now b
      = (match downloadBundle b.transport with
         | .error e => ⟨.error e, fs, true⟩
         | .ok data =>
            ⟨.ok data,
             persistCache (getCacheDir noCacheFlag cacheDirFlag env c)
               (joinPath (getCacheDir noCacheFlag cacheDirFlag env c)
                 bundleFileName) data now b fs, true⟩) := by
  simp only [fetchBundle]
  rw [if_neg hmkB, if_neg hcond]

/-- The persistence step leaves the target path either untouched or
holding exactly the downloaded data with mode 0o600. -/
theorem persistCache_target (cd bp : String) (data : List Nat) (now : Int)
    (b : FetchBehavior) (fs : FS) :
    persistCache cd bp data now b fs bp = fs bp
    ∨ persistCache cd bp data now b fs bp = some ⟨data, 0o600, now⟩ := by
  unfold persistCache
  by_cases hdn : cd = "/dev/null"
  · rw [if_pos hdn]
    exact Or.inl rfl
  · rw [if_neg hdn]
    have hne : ¬(bp = bp ++ ".tmp") := fun h => append_tmp_ne bp h.symm
    by_cases hw : b.writeOk
    · simp only [hw, Bool.not_true, Bool.false_eq_true, if_false]
      by_cases hrn : b.renameOk
      · simp only [hrn, if_true]
        right
        unfold fsInsert
        rw [if_pos rfl]
      · simp only [hrn, Bool.false_eq_true, if_false]
        left
        unfold fsRemove fsInsert
        rw [if_neg hne, if_neg hne]
    · simp only [hw, Bool.not_false, Bool.false_eq_true, if_true]
      left
      unfold fsInsert
      rw [if_neg hne]

/-- Every file the persistence step creates or modifies carries mode
0o600. -/
theorem persistCache_perm (cd bp : String) (data : List Nat) (now : Int)
    (b : FetchBehavior) (fs : FS) (p : String) (fd : FileData)
    (hnew : persistCache cd bp data now b fs p = some fd)
    (hold : fs p ≠ some fd) :
    fd.perm = 0o600 := by
  unfold persistCache at hnew
  by_cases hdn : cd = "/dev/null"
  · rw [if_pos hdn] at hnew
    exact absurd hnew hold
  · rw [if_neg hdn] at hnew
    by_cases hw : b.writeOk
    · simp only [hw, Bool.not_true, Bool.false_eq_true, if_false] at hnew
      by_cases hrn : b.renameOk
      · simp only [hrn, if_true] at hnew
        simp only [fsInsert, fsRemove] at hnew
        by_cases hp1 : p = bp
        · rw [if_pos hp1] at hnew
          cases hnew
          rfl
        · by_cases hp2 : p = bp ++ ".tmp"
          · simp [hp1, hp2] at hnew
            exact absurd hnew.1 (append_tmp_ne bp)
          · simp [hp1, hp2] at hnew
            exact absurd hnew hold
      · simp only [hrn, Bool.false_eq_true, if_false] at hnew
        simp only [fsRemove, fsInsert] at hnew
        by_cases hp2 : p = bp ++ ".tmp"
        · simp [hp2] at hnew
        · simp [hp2] at hnew
          exact absurd hnew hold
    · simp only [hw, Bool.not_false, Bool.false_eq_true, if_true] at hnew
      simp only [fsInsert] at hnew
      by_cases hp2 : p = bp ++ ".tmp"
      · rw [if_pos hp2] at hnew
        cases hnew
        rfl
      · rw [if_neg hp2] at hnew
        exact absurd hnew hold

/-- A fully successful persistence step installs exactly the downloaded
data at the target path with mode 0o600. -/
theorem persistCache_success (cd bp : String) (data : List Nat) (now : Int)
    (b : FetchBehavior) (fs : FS) (hdn : cd ≠ "/dev/null")
    (hw : b.writeOk = true) (hrn : b.renameOk = true) :
    persistCache cd bp data now b fs bp = some ⟨data, 0o600, now⟩ := by
  unfold persistCache
  rw [if_neg hdn, hw]
  simp only [Bool.not_true]
  rw [if_neg (by simp), hrn, if_pos rfl]
  unfold fsInsert
  rw [if_pos rfl]

/-- C7: with caching active (directory not the disabled sentinel, no
force refresh, readable file system), the cache read serves the cached
bytes without a network fetch exactly when the cache file exists with
age strictly below the 24-hour TTL; an invalid (absent or expired)
cache triggers the download, and a successful download with successful
persistence fully replaces the cache file's content. -/
theorem fetchBundle_cache_ttl (cacheDirFlag env : String) (c : Bool)
    (fs : FS) (now : Int) (b : FetchBehavior)
    (hdir : getCacheDir false cacheDirFlag env c ≠ "/dev/null")
    (hmk : b.mkdirOk = true) (hread : b.readOk = true) :
    ((fetchBundle false cacheDirFlag false env c fs now b).downloaded = false
      ↔ isCacheValid fs now
          (joinPath (getCacheDir false cacheDirFlag env c) bundleFileName)
          = true)
    ∧ (∀ fd, fs (joinPath (getCacheDir false cacheDirFlag env c)
          bundleFileName) = some fd → now - fd.mtime < cacheTTL →
        (fetchBundle false cacheDirFlag false env c fs now b).result
          = .ok fd.content
        ∧ (fetchBundle false cacheDirFlag false env c fs now b).downloaded
          = false)
    ∧ (isCacheValid fs now
        (joinPath (getCacheDir false cacheDirFlag env c) bundleFileName)
        = false →
      (fetchBundle false cacheDirFlag false env c fs now b).downloaded = true
      ∧ ∀ data, downloadBundle b.transport = .ok data →
          b.writeOk = true → b.renameOk = true →
          (fetchBundle false cacheDirFlag false env c fs now b).fs
            (joinPath (getCacheDir false cacheDirFlag env c) bundleFileName)
            = some ⟨data, 0o600, now⟩) := by
  have hmkB : ¬(getCacheDir false cacheDirFlag env c ≠ "/dev/null"
      ∧ b.mkdirOk = false) := by simp [hmk]
  by_cases hvalid : isCacheValid fs now
      (joinPath (getCacheDir false cacheDirFlag env c) bundleFileName) = true
  · obtain ⟨fd0, hfd0, _⟩ := isCacheValid_some fs now _ hvalid
    have hr := fetchBundleHit false cacheDirFlag false env c fs now b fd0
      hmkB ⟨hdir, rfl, hvalid, hread⟩ hfd0
    refine ⟨by rw [hr]; simp [hvalid], ?_, ?_⟩
    · intro fd hfd _
      have heq : fd = fd0 := Option.some.inj (hfd.symm.trans hfd0)
      rw [hr, heq]
      exact ⟨rfl, rfl⟩
    · intro h
      rw [hvalid] at h
      exact absurd h (by simp)
  · have hvF : isCacheValid fs now
        (joinPath (getCacheDir false cacheDirFlag env c) bundleFileName)
        = false := by simpa using hvalid
    have hcond : ¬(getCacheDir false cacheDirFlag env c ≠ "/dev/null"
        ∧ (false : Bool) = false
        ∧ isCacheValid fs now
            (joinPath (getCacheDir false cacheDirFlag env c) bundleFileName)
            = true
        ∧ b.readOk = true) := by simp [hvF]
    have hr := fetchBundleMiss false cacheDirFlag false env c fs now b
      hmkB hcond
    cases hdl : downloadBundle b.transport with
    | error e =>
      rw [hdl] at hr
      have hr2 : fetchBundle false cacheDirFlag false env c fs now b
          = ⟨.error e, fs, true⟩ := hr
      refine ⟨by rw [hr2]; simp [hvF], ?_, ?_⟩
      · intro fd hfd hlt
        exact absurd (isCacheValid_of_some fs now _ fd hfd hlt)
          (by simp [hvF])
      · intro _
        refine ⟨by rw [hr2], ?_⟩
        intro data hdata
        exact absurd hdata (by simp)
    | ok data0 =>
      rw [hdl] at hr
      have hr2 : fetchBundle false cacheDirFlag false env c fs now b
          = ⟨.ok data0,
              persistCache (getCacheDir false cacheDirFlag env c)
                (joinPath (getCacheDir false cacheDirFlag env c)
                  bundleFileName) data0 now b fs, true⟩ := hr
      refine ⟨by rw [hr2]; simp [hvF], ?_, ?_⟩
      · intro fd hfd hlt
        exact absurd (isCacheValid_of_some fs now _ fd hfd hlt)
          (by simp [hvF])
      · intro _
        refine ⟨by rw [hr2], ?_⟩
        intro data hdata hw hrn
        have hdd : data0 = data := Except.ok.inj hdata
        subst hdd
        rw [hr2]
        exact persistCache_success _ _ _ now b fs hdir hw hrn

/-- C7 witness: a file written at time 0 is served from the cache at
time 5 without a download. -/
theorem fetchBundle_cache_ttl_witness :
    getCacheDir false "/cache" "" false ≠ "/dev/null"
    ∧ (fetchBundle false "/cache" false "" false fsFresh 5 behaviorOk).result
        = .ok [7]
    ∧ (fetchBundle false "/cache" false "" false fsFresh 5
        behaviorOk).downloaded = false :=
  ⟨by decide,
   ((fetchBundle_cache_ttl "/cache" "" false fsFresh 5 behaviorOk (by decide)
      rfl rfl).2.1 ⟨[7], 0o600, 0⟩ (by decide) (by decide)).1,
   ((fetchBundle_cache_ttl "/cache" "" false fsFresh 5 behaviorOk (by decide)
      rfl rfl).2.1 ⟨[7], 0o600, 0⟩ (by decide) (by decide)).2⟩

/-- C6: once the download has produced the bundle bytes, persistence
failures are non-fatal — the bytes are returned whatever the write and
rename outcomes — and the final cache filename either keeps its prior
content or holds exactly the downloaded bytes, never a partial write
(directory-creation failure aborts before the download, so it never
coincides with successfully obtained bytes). -/
theorem fetchBundle_persist_nonfatal (noCacheFlag : Bool)
    (cacheDirFlag : String) (forceRefresh : Bool) (env : String) (c : Bool)
    (fs : FS) (now : Int) (b : FetchBehavior) (data : List Nat)
    (hdl : downloadBundle b.transport = .ok data)
    (hrun : (fetchBundle noCacheFlag cacheDirFlag forceRefresh env c fs now
      b).downloaded = true) :
    (fetchBundle noCacheFlag cacheDirFlag forceRefresh env c fs now b).result
      = .ok data
    ∧ ((fetchBundle noCacheFlag cacheDirFlag forceRefresh env c fs now b).fs
        (joinPath (getCacheDir noCacheFlag cacheDirFlag env c)
          bundleFileName)
        = fs (joinPath (getCacheDir noCacheFlag cacheDirFlag env c)
          bundleFileName)
      ∨ (fetchBundle noCacheFlag cacheDirFlag forceRefresh env c fs now b).fs
        (joinPath (getCacheDir noCacheFlag cacheDirFlag env c)
          bundleFileName)
        = some ⟨data, 0o600, now⟩) := by
  by_cases hmkB : getCacheDir noCacheFlag cacheDirFlag env c ≠ "/dev/null"
      ∧ b.mkdirOk = false
  · rw [fetchBundleMkdirFail noCacheFlag cacheDirFlag forceRefresh env c fs
      now b hmkB] at hrun
    exact absurd hrun (by simp)
  · by_cases hcond : getCacheDir noCacheFlag cacheDirFlag env c ≠ "/dev/null"
        ∧ forceRefresh = false
        ∧ isCacheValid fs now
            (joinPath (getCacheDir noCacheFlag cacheDirFlag env c)
              bundleFileName) = true
        ∧ b.readOk = true
    · obtain ⟨fd0, hfd0, _⟩ := isCacheValid_some fs now _ hcond.2.2.1
      rw [fetchBundleHit noCacheFlag cacheDirFlag forceRefresh env c fs now
        b fd0 hmkB hcond hfd0] at hrun
      exact absurd hrun (by simp)
    · have hr := fetchBundleMiss noCacheFlag cacheDirFlag forceRefresh env c
        fs now b hmkB hcond
      rw [hdl] at hr
      refine ⟨by rw [hr], ?_⟩
      rw [hr]
      exact persistCache_target _ _ data now b fs

/-- C6 witness: with a failing temp-file write, the downloaded bytes
are still returned and the final cache filename is untouched. -/
theorem fetchBundle_persist_nonfatal_witness :
    downloadBundle behaviorNoWrite.transport = .ok [1, 2, 3]
    ∧ (fetchBundle false "/cache" false "" false fsEmpty 0
        behaviorNoWrite).downloaded = true
    ∧ (fetchBundle false "/cache" false "" false fsEmpty 0
        behaviorNoWrite).result = .ok [1, 2, 3]
    ∧ ((fetchBundle false "/cache" false "" false fsEmpty 0
          behaviorNoWrite).fs
        (joinPath (getCacheDir false "/cache" "" false) bundleFileName)
        = fsEmpty (joinPath (getCacheDir false "/cache" "" false)
          bundleFileName)
      ∨ (fetchBundle false "/cache" false "" false fsEmpty 0
          behaviorNoWrite).fs
        (joinPath (getCacheDir false "/cache" "" false) bundleFileName)
        = some ⟨[1, 2, 3], 0o600, 0⟩) :=
  ⟨by rfl, by decide,
   (fetchBundle_persist_nonfatal false "/cache" false "" false fsEmpty 0
     behaviorNoWrite [1, 2, 3] (by rfl) (by decide)).1,
   (fetchBundle_persist_nonfatal false "/cache" false "" false fsEmpty 0
     behaviorNoWrite [1, 2, 3] (by rfl) (by decide)).2⟩

/-- C8: every file a `fetchBundle` run creates or modifies — the temp
file and the final cache file alike — carries permission bits 0o600,
whose group and other fields (the low six bits) are zero: owner-only
access. -/
theorem fetchBundle_cache_file_perms (noCacheFlag : Bool)
    (cacheDirFlag : String) (forceRefresh : Bool) (env : String) (c : Bool)
    (fs : FS) (now : Int) (b : FetchBehavior) (p : String) (fd : FileData)
    (hnew : (fetchBundle noCacheFlag cacheDirFlag forceRefresh env c fs now
      b).fs p = some fd)
    (hold : fs p ≠ some fd) :
    fd.perm = 0o600 ∧ fd.perm % 64 = 0 := by
  have hperm : fd.perm = 0o600 := by
    by_cases hmkB : getCacheDir noCacheFlag cacheDirFlag env c ≠ "/dev/null"
        ∧ b.mkdirOk = false
    · rw [fetchBundleMkdirFail noCacheFlag cacheDirFlag forceRefresh env c
        fs now b hmkB] at hnew
      exact absurd hnew hold
    · by_cases hcond : getCacheDir noCacheFlag cacheDirFlag env c
          ≠ "/dev/null"
          ∧ forceRefresh = false
          ∧ isCacheValid fs now
              (joinPath (getCacheDir noCacheFlag cacheDirFlag env c)
                bundleFileName) = true
          ∧ b.readOk = true
      · obtain ⟨fd0, hfd0, _⟩ := isCacheValid_some fs now _ hcond.2.2.1
        rw [fetchBundleHit noCacheFlag cacheDirFlag forceRefresh env c fs
          now b fd0 hmkB hcond hfd0] at hnew
        exact absurd hnew hold
      · have hr := fetchBundleMiss noCacheFlag cacheDirFlag forceRefresh env
          c fs now b hmkB hcond
        cases hdl : downloadBundle b.transport with
        | error e =>
          rw [hdl] at hr
          rw [hr] at hnew
          exact absurd hnew hold
        | ok data =>
          rw [hdl] at hr
          rw [hr] at hnew
          exact persistCache_perm _ _ data now b fs p fd hnew hold
  exact ⟨hperm, by rw [hperm]⟩

/-- C8 witness: the cache file persisted by a fully successful run has
mode 0o600, with zero group/other bits. -/
theorem fetchBundle_cache_file_perms_witness :
    (fetchBundle false "/cache" false "" false fsEmpty 0 behaviorOk).fs
      (joinPath (getCacheDir false "/cache" "" false) bundleFileName)
      = some ⟨[1, 2, 3], 0o600, 0⟩
    ∧ (FileData.mk [1, 2, 3] 0o600 0).perm = 0o600
    ∧ (FileData.mk [1, 2, 3] 0o600 0).perm % 64 = 0 :=
  ⟨by decide,
   (fetchBundle_cache_file_perms false "/cache" false "" false fsEmpty 0
     behaviorOk (joinPath (getCacheDir false "/cache" "" false)
       bundleFileName) ⟨[1, 2, 3], 0o600, 0⟩ (by decide) (by decide)).1,
   (fetchBundle_cache_file_perms false "/cache" false "" false fsEmpty 0
     behaviorOk (joinPath (getCacheDir false "/cache" "" false)
       bundleFileName) ⟨[1, 2, 3], 0o600, 0⟩ (by decide) (by decide)).2⟩
